import Mathlib

/-!
Shallow embedding of the procedural galaxy point-cloud generator in
src/portfolio/src/components/AnimatedBackground.tsx.

Randomness model: each loop iteration of the source consumes a fresh run of
Math.random() draws.  We model the random source as a stream per iteration:
for iteration i of a loop, rnd j is the j-th Math.random() result consumed
inside that iteration, a real number in [0,1).  A whole loop takes a family
u : ℕ → ℕ → ℝ, where u i is iteration i's stream.
-/

namespace AnimatedBackground

/-- Number of spiral-arm particles (source line 13). -/
def armParticlesCount : ℕ := 25000

/-- Number of central-bar particles (source line 18). -/
def barParticlesCount : ℕ := 8000

/-- Number of core particles (source line 23). -/
def coreParticlesCount : ℕ := 5000

/-- Number of spiral arms (source line 28). -/
def arms : ℕ := 4

/-- Spiral winding strength (source line 29). -/
noncomputable def spiralStrength : ℝ := 1.8

/-- Disk radius of the spiral arms (source line 30). -/
noncomputable def diskRadius : ℝ := 5

/-- Central bar half-length (source line 31). -/
noncomputable def barLength : ℝ := 2.5

/-- Central bar width (source line 32). -/
noncomputable def barWidth : ℝ := 0.6

/-- Core bulge radius (source line 33). -/
noncomputable def coreRadius : ℝ := 0.7

/-- A draw stream takes values in [0,1), as Math.random() does. -/
def InUnit (rnd : ℕ → ℝ) : Prop := ∀ j, 0 ≤ rnd j ∧ rnd j < 1

/-- A per-iteration family of draw streams, all in [0,1). -/
def InUnit2 (u : ℕ → ℕ → ℝ) : Prop := ∀ i, InUnit (u i)

/-- The all-zeros draw stream family, a concrete admissible random source. -/
def zeroStream : ℕ → ℕ → ℝ := fun _ _ => 0

/-- The all-zeros draw stream for a single iteration. -/
def zeroDraw : ℕ → ℝ := fun _ => 0

/-- Arm sample radius: Math.pow(Math.random(), 0.5) * diskRadius (line 38),
with r0 the first draw of the iteration. -/
noncomputable def armRadius (r0 : ℝ) : ℝ := r0 ^ (0.5 : ℝ) * diskRadius

/-- Base angle of the arm that sample i belongs to:
(branch / arms) * Math.PI * 2 with branch = i % arms (lines 41-42). -/
noncomputable def armBaseAngle (i : ℕ) : ℝ :=
  ((i % arms : ℕ) : ℝ) / (arms : ℝ) * Real.pi * 2

/-- Jitter width 0.2 + (radius / diskRadius) * 0.6 (line 49). -/
noncomputable def randomFactor (radius : ℝ) : ℝ := 0.2 + radius / diskRadius * 0.6

/-- Final angle of arm sample i (line 50): base angle + spiral offset
radius * spiralStrength + (U - 0.5) * randomFactor. -/
noncomputable def armAngle (i : ℕ) (rnd : ℕ → ℝ) : ℝ :=
  armBaseAngle i + armRadius (rnd 0) * spiralStrength +
    (rnd 1 - 0.5) * randomFactor (armRadius (rnd 0))

/-- Vertical thickness 0.12 * (1 - radius/diskRadius)^1.5 + 0.02 (line 55). -/
noncomputable def verticalSpread (radius : ℝ) : ℝ :=
  0.12 * (1 - radius / diskRadius) ^ (1.5 : ℝ) + 0.02

/-- Position (x, y, z) of arm sample i (lines 52-58). -/
noncomputable def armPos (i : ℕ) (rnd : ℕ → ℝ) : ℝ × ℝ × ℝ :=
  (Real.cos (armAngle i rnd) * armRadius (rnd 0),
   (rnd 2 - 0.5) * verticalSpread (armRadius (rnd 0)),
   Real.sin (armAngle i rnd) * armRadius (rnd 0))

/-- Index of the draw consumed by the hot-star test (line 88): the draws at
indices 0,1,2 are radius, angle jitter and y; the colour branch taken
(lines 65-85) decides how many further draws were consumed before it. -/
noncomputable def armHotIdx (rnd : ℕ → ℝ) : ℕ :=
  if armRadius (rnd 0) < 1.2 then 3
  else if armRadius (rnd 0) < 3 then (if rnd 3 < 0.7 then 5 else 4)
  else 5

/-- Colour chosen by the radius banding (lines 65-85), before the hot-star
override. -/
noncomputable def armBaseColor (rnd : ℕ → ℝ) : ℝ × ℝ × ℝ :=
  if armRadius (rnd 0) < 1.2 then (1, 0.9, 0.7)
  else if armRadius (rnd 0) < 3 then
    (if rnd 3 < 0.7 then (0.9, 0.9, 0.8 + rnd 4 * 0.2) else (1, 0.9, 0.7))
  else (1, 0.6 + rnd 3 * 0.3, 0.4 + rnd 4 * 0.3)

/-- Final colour of an arm sample, with the hot-star override (lines 88-90):
Math.random() < 0.01 && radius > 1.2 replaces the colour by (0.7, 0.8, 1). -/
noncomputable def armColor (rnd : ℕ → ℝ) : ℝ × ℝ × ℝ :=
  if rnd (armHotIdx rnd) < 0.01 ∧ armRadius (rnd 0) > 1.2 then (0.7, 0.8, 1)
  else armBaseColor rnd

/-- Flattening count triples into one flat float list, as the source's
positions.push(x, y, z) does over a whole loop. -/
noncomputable def tripleList (f : ℕ → ℝ × ℝ × ℝ) (count : ℕ) : List ℝ :=
  (List.range count).flatMap fun i => [(f i).1, (f i).2.1, (f i).2.2]

/-- armPositions after the arm loop (lines 36-93) with the given count. -/
noncomputable def armPositions (u : ℕ → ℕ → ℝ) (count : ℕ) : List ℝ :=
  tripleList (fun i => armPos i (u i)) count

/-- armColors after the arm loop (lines 36-93) with the given count. -/
noncomputable def armColors (u : ℕ → ℕ → ℝ) (count : ℕ) : List ℝ :=
  tripleList (fun i => armColor (u i)) count

/-- Bar sample x: (Math.random() - 0.5) * barLength * 2 (line 98). -/
noncomputable def barX (rnd : ℕ → ℝ) : ℝ := (rnd 0 - 0.5) * barLength * 2

/-- Bar sample base y: (Math.random() - 0.5) * 0.2 (line 101). -/
noncomputable def barBaseY (rnd : ℕ → ℝ) : ℝ := (rnd 1 - 0.5) * 0.2

/-- Bar sample base z: (Math.random() - 0.5) * barWidth (line 104). -/
noncomputable def barBaseZ (rnd : ℕ → ℝ) : ℝ := (rnd 2 - 0.5) * barWidth

/-- Taper factor (1 - |x| / barLength)^1.2 (lines 107-108). -/
noncomputable def taperFactor (x : ℝ) : ℝ := (1 - |x| / barLength) ^ (1.2 : ℝ)

/-- Position (x, adjustedY, adjustedZ) of a bar sample (lines 110-113). -/
noncomputable def barPos (rnd : ℕ → ℝ) : ℝ × ℝ × ℝ :=
  (barX rnd, barBaseY rnd * taperFactor (barX rnd), barBaseZ rnd * taperFactor (barX rnd))

/-- Colour of a bar sample (lines 116-118): golden with jittered g and b. -/
noncomputable def barColor (rnd : ℕ → ℝ) : ℝ × ℝ × ℝ :=
  (1, 0.8 + rnd 3 * 0.1, 0.5 + rnd 4 * 0.2)

/-- barPositions after the bar loop (lines 96-121) with the given count. -/
noncomputable def barPositions (v : ℕ → ℕ → ℝ) (count : ℕ) : List ℝ :=
  tripleList (fun i => barPos (v i)) count

/-- barColors after the bar loop (lines 96-121) with the given count. -/
noncomputable def barColors (v : ℕ → ℕ → ℝ) (count : ℕ) : List ℝ :=
  tripleList (fun i => barColor (v i)) count

/-- Core sample azimuth theta = Math.random() * Math.PI * 2 (line 126). -/
noncomputable def coreTheta (rnd : ℕ → ℝ) : ℝ := rnd 0 * Real.pi * 2

/-- Core sample polar angle phi = Math.acos(2 * Math.random() - 1) (line 127). -/
noncomputable def corePhi (rnd : ℕ → ℝ) : ℝ := Real.arccos (2 * rnd 1 - 1)

/-- Core sample radius Math.pow(Math.random(), 0.3) * coreRadius (line 130). -/
noncomputable def coreSampleRadius (rnd : ℕ → ℝ) : ℝ := rnd 2 ^ (0.3 : ℝ) * coreRadius

/-- Position of a core sample, spherical to Cartesian with the y component
flattened by 0.6 (lines 132-134). -/
noncomputable def corePos (rnd : ℕ → ℝ) : ℝ × ℝ × ℝ :=
  (coreSampleRadius rnd * Real.sin (corePhi rnd) * Real.cos (coreTheta rnd),
   coreSampleRadius rnd * Real.sin (corePhi rnd) * Real.sin (coreTheta rnd) * 0.6,
   coreSampleRadius rnd * Real.cos (corePhi rnd))

/-- Colour of a core sample (lines 139-141): near-white with jittered g, b. -/
noncomputable def coreColor (rnd : ℕ → ℝ) : ℝ × ℝ × ℝ :=
  (1, 0.9 + rnd 3 * 0.1, 0.7 + rnd 4 * 0.2)

/-- corePositions after the core loop (lines 124-144) with the given count. -/
noncomputable def corePositions (w : ℕ → ℕ → ℝ) (count : ℕ) : List ℝ :=
  tripleList (fun i => corePos (w i)) count

/-- coreColors after the core loop (lines 124-144) with the given count. -/
noncomputable def coreColors (w : ℕ → ℕ → ℝ) (count : ℕ) : List ℝ :=
  tripleList (fun i => coreColor (w i)) count

/-- The scene state after mount: the three generated buffer pairs and one
rotation.y angle per region (refs at lines 7-9; rotations start at 0). -/
structure GalaxyScene where
  armPositionsBuf : List ℝ
  armColorsBuf : List ℝ
  barPositionsBuf : List ℝ
  barColorsBuf : List ℝ
  corePositionsBuf : List ℝ
  coreColorsBuf : List ℝ
  galaxyRotY : ℝ
  barRotY : ℝ
  coreRotY : ℝ

/-- The scene as mounted: buffers generated once from the three random
sources, all rotations 0 (three.js objects start unrotated). -/
noncomputable def initialScene (u v w : ℕ → ℕ → ℝ) (nArm nBar nCore : ℕ) : GalaxyScene :=
  { armPositionsBuf := armPositions u nArm
    armColorsBuf := armColors u nArm
    barPositionsBuf := barPositions v nBar
    barColorsBuf := barColors v nBar
    corePositionsBuf := corePositions w nCore
    coreColorsBuf := coreColors w nCore
    galaxyRotY := 0
    barRotY := 0
    coreRotY := 0 }

/-- The useFrame callback (lines 160-170): each region's rotation.y is
advanced by 0.0002; nothing else of the scene is touched. -/
noncomputable def frameUpdate (s : GalaxyScene) : GalaxyScene :=
  { s with
    galaxyRotY := s.galaxyRotY + 0.0002
    barRotY := s.barRotY + 0.0002
    coreRotY := s.coreRotY + 0.0002 }

/-- Arm loop run with a requested signed count: the source's loop
for (let i = 0; i < count; i++) executes zero times when count ≤ 0, so a
negative request produces an empty buffer with no error. -/
noncomputable def armPositionsOfCount (u : ℕ → ℕ → ℝ) (count : ℤ) : List ℝ :=
  armPositions u count.toNat

/-- Arm colour buffer for a requested signed count; see armPositionsOfCount. -/
noncomputable def armColorsOfCount (u : ℕ → ℕ → ℝ) (count : ℤ) : List ℝ :=
  armColors u count.toNat

/-- Bar position buffer for a requested signed count. -/
noncomputable def barPositionsOfCount (v : ℕ → ℕ → ℝ) (count : ℤ) : List ℝ :=
  barPositions v count.toNat

/-- Bar colour buffer for a requested signed count. -/
noncomputable def barColorsOfCount (v : ℕ → ℕ → ℝ) (count : ℤ) : List ℝ :=
  barColors v count.toNat

/-- Core position buffer for a requested signed count. -/
noncomputable def corePositionsOfCount (w : ℕ → ℕ → ℝ) (count : ℤ) : List ℝ :=
  corePositions w count.toNat

/-- Core colour buffer for a requested signed count. -/
noncomputable def coreColorsOfCount (w : ℕ → ℕ → ℝ) (count : ℤ) : List ℝ :=
  coreColors w count.toNat

theorem tripleList_length (f : ℕ → ℝ × ℝ × ℝ) (n : ℕ) :
    (tripleList f n).length = 3 * n := by
  induction n with
  | zero => rfl
  | succ k ih =>
    unfold tripleList at ih ⊢
    rw [List.range_succ, List.flatMap_append, List.length_append, ih]
    simp [Nat.mul_succ]

theorem mem_tripleList {c : ℝ} {f : ℕ → ℝ × ℝ × ℝ} {n : ℕ} (h : c ∈ tripleList f n) :
    ∃ i, i < n ∧ (c = (f i).1 ∨ c = (f i).2.1 ∨ c = (f i).2.2) := by
  unfold tripleList at h
  rw [List.mem_flatMap] at h
  obtain ⟨i, hi, hc⟩ := h
  exact ⟨i, List.mem_range.mp hi, by simpa using hc⟩

/-- Claim C1: for every region generator (arms, bar, core) and every requested
particle count, the produced flat positions and colors lists both have exactly
3 * count elements, so their lengths agree for every generated point set. -/
theorem c1_buffer_lengths (u v w : ℕ → ℕ → ℝ) (nA nB nC : ℕ) :
    (armPositions u nA).length = 3 * nA ∧ (armColors u nA).length = 3 * nA ∧
    (barPositions v nB).length = 3 * nB ∧ (barColors v nB).length = 3 * nB ∧
    (corePositions w nC).length = 3 * nC ∧ (coreColors w nC).length = 3 * nC ∧
    (armPositions u nA).length = (armColors u nA).length ∧
    (barPositions v nB).length = (barColors v nB).length ∧
    (corePositions w nC).length = (coreColors w nC).length := by
  exact ⟨tripleList_length _ _, tripleList_length _ _, tripleList_length _ _,
    tripleList_length _ _, tripleList_length _ _, tripleList_length _ _,
    (tripleList_length _ _).trans (tripleList_length _ _).symm,
    (tripleList_length _ _).trans (tripleList_length _ _).symm,
    (tripleList_length _ _).trans (tripleList_length _ _).symm⟩

theorem armRadius_nonneg {r0 : ℝ} (h : 0 ≤ r0) : 0 ≤ armRadius r0 :=
  mul_nonneg (Real.rpow_nonneg h _) (by norm_num [diskRadius])

theorem armRadius_le {r0 : ℝ} (h0 : 0 ≤ r0) (h1 : r0 < 1) : armRadius r0 ≤ diskRadius := by
  have h := Real.rpow_le_one h0 h1.le (by norm_num : (0:ℝ) ≤ 0.5)
  unfold armRadius diskRadius
  linarith

theorem arm_planar_radius (i : ℕ) (rnd : ℕ → ℝ) (h : 0 ≤ rnd 0) :
    Real.sqrt ((armPos i rnd).1 ^ 2 + (armPos i rnd).2.2 ^ 2) = armRadius (rnd 0) := by
  have hx : (armPos i rnd).1 = Real.cos (armAngle i rnd) * armRadius (rnd 0) := rfl
  have hz : (armPos i rnd).2.2 = Real.sin (armAngle i rnd) * armRadius (rnd 0) := rfl
  have hpyth := Real.sin_sq_add_cos_sq (armAngle i rnd)
  have hsum : (armPos i rnd).1 ^ 2 + (armPos i rnd).2.2 ^ 2 = armRadius (rnd 0) ^ 2 := by
    rw [hx, hz]
    linear_combination armRadius (rnd 0) ^ 2 * hpyth
  rw [hsum, Real.sqrt_sq (armRadius_nonneg h)]

theorem armColor_mem_unit (rnd : ℕ → ℝ) (h : InUnit rnd) :
    (0 ≤ (armColor rnd).1 ∧ (armColor rnd).1 ≤ 1) ∧
    (0 ≤ (armColor rnd).2.1 ∧ (armColor rnd).2.1 ≤ 1) ∧
    (0 ≤ (armColor rnd).2.2 ∧ (armColor rnd).2.2 ≤ 1) := by
  obtain ⟨h30, h31⟩ := h 3
  obtain ⟨h40, h41⟩ := h 4
  unfold armColor armBaseColor
  split_ifs <;>
    refine ⟨⟨?_, ?_⟩, ⟨?_, ?_⟩, ⟨?_, ?_⟩⟩ <;> simp only [] <;> linarith

theorem barColor_mem_unit (rnd : ℕ → ℝ) (h : InUnit rnd) :
    (0 ≤ (barColor rnd).1 ∧ (barColor rnd).1 ≤ 1) ∧
    (0 ≤ (barColor rnd).2.1 ∧ (barColor rnd).2.1 ≤ 1) ∧
    (0 ≤ (barColor rnd).2.2 ∧ (barColor rnd).2.2 ≤ 1) := by
  obtain ⟨h30, h31⟩ := h 3
  obtain ⟨h40, h41⟩ := h 4
  unfold barColor
  refine ⟨⟨?_, ?_⟩, ⟨?_, ?_⟩, ⟨?_, ?_⟩⟩ <;> simp only [] <;> linarith

theorem coreColor_mem_unit (rnd : ℕ → ℝ) (h : InUnit rnd) :
    (0 ≤ (coreColor rnd).1 ∧ (coreColor rnd).1 ≤ 1) ∧
    (0 ≤ (coreColor rnd).2.1 ∧ (coreColor rnd).2.1 ≤ 1) ∧
    (0 ≤ (coreColor rnd).2.2 ∧ (coreColor rnd).2.2 ≤ 1) := by
  obtain ⟨h30, h31⟩ := h 3
  obtain ⟨h40, h41⟩ := h 4
  unfold coreColor
  refine ⟨⟨?_, ?_⟩, ⟨?_, ?_⟩, ⟨?_, ?_⟩⟩ <;> simp only [] <;> linarith

/-- Claim C2: for admissible random sources, every arm sample's planar radius
sqrt(x^2 + z^2) is at most diskRadius = 5, every core sample radius lies in
[0, coreRadius = 0.7], and every colour channel value emitted by any of the
three regions lies within [0, 1]. -/
theorem c2_radius_and_color_bounds (u v w : ℕ → ℕ → ℝ)
    (hu : InUnit2 u) (hv : InUnit2 v) (hw : InUnit2 w) (nA nB nC : ℕ) :
    (∀ i : ℕ, 0 ≤ armRadius (u i 0) ∧
      Real.sqrt ((armPos i (u i)).1 ^ 2 + (armPos i (u i)).2.2 ^ 2) ≤ diskRadius) ∧
    (∀ i : ℕ, 0 ≤ coreSampleRadius (w i) ∧ coreSampleRadius (w i) ≤ coreRadius) ∧
    (∀ c ∈ armColors u nA, 0 ≤ c ∧ c ≤ 1) ∧
    (∀ c ∈ barColors v nB, 0 ≤ c ∧ c ≤ 1) ∧
    (∀ c ∈ coreColors w nC, 0 ≤ c ∧ c ≤ 1) := by
  refine ⟨?_, ?_, ?_, ?_, ?_⟩
  · intro i
    obtain ⟨h0, h1⟩ := hu i 0
    exact ⟨armRadius_nonneg h0,
      by rw [arm_planar_radius i (u i) h0]; exact armRadius_le h0 h1⟩
  · intro i
    obtain ⟨h0, h1⟩ := hw i 2
    refine ⟨mul_nonneg (Real.rpow_nonneg h0 _) (by norm_num [coreRadius]), ?_⟩
    have ht := Real.rpow_le_one h0 h1.le (by norm_num : (0:ℝ) ≤ 0.3)
    unfold coreSampleRadius coreRadius
    linarith
  · intro c hc
    obtain ⟨i, _, hcase⟩ := mem_tripleList hc
    have hb := armColor_mem_unit (u i) (hu i)
    rcases hcase with h | h | h <;> rw [h] <;> tauto
  · intro c hc
    obtain ⟨i, _, hcase⟩ := mem_tripleList hc
    have hb := barColor_mem_unit (v i) (hv i)
    rcases hcase with h | h | h <;> rw [h] <;> tauto
  · intro c hc
    obtain ⟨i, _, hcase⟩ := mem_tripleList hc
    have hb := coreColor_mem_unit (w i) (hw i)
    rcases hcase with h | h | h <;> rw [h] <;> tauto

/-- Claim C2 witness: the bounds instantiated at the all-zeros random source
with two samples per region. -/
theorem c2_radius_and_color_bounds_witness :
    InUnit2 zeroStream ∧
    ((∀ i : ℕ, 0 ≤ armRadius (zeroStream i 0) ∧
      Real.sqrt ((armPos i (zeroStream i)).1 ^ 2 +
        (armPos i (zeroStream i)).2.2 ^ 2) ≤ diskRadius) ∧
    (∀ i : ℕ, 0 ≤ coreSampleRadius (zeroStream i) ∧
      coreSampleRadius (zeroStream i) ≤ coreRadius) ∧
    (∀ c ∈ armColors zeroStream 2, 0 ≤ c ∧ c ≤ 1) ∧
    (∀ c ∈ barColors zeroStream 2, 0 ≤ c ∧ c ≤ 1) ∧
    (∀ c ∈ coreColors zeroStream 2, 0 ≤ c ∧ c ≤ 1)) := by
  have hz : InUnit2 zeroStream := fun _ _ => ⟨le_rfl, by norm_num [zeroStream]⟩
  exact ⟨hz, c2_radius_and_color_bounds zeroStream zeroStream zeroStream hz hz hz 2 2 2⟩

/-- Claim C3: arm sample i belongs to arm i mod arms with base angle
2 pi (i mod arms) / arms; its final angle is base + radius * spiralStrength +
(U - 0.5) * randomFactor, where randomFactor grows linearly with
radius / diskRadius; hence the angle is within randomFactor / 2 of one of the
arms expected spiral angles. -/
theorem c3_arm_angle (i : ℕ) (rnd : ℕ → ℝ)
    (h0 : 0 ≤ rnd 0) (h1l : 0 ≤ rnd 1) (h1u : rnd 1 < 1) :
    armAngle i rnd =
      armBaseAngle i + armRadius (rnd 0) * spiralStrength +
        (rnd 1 - 0.5) * randomFactor (armRadius (rnd 0)) ∧
    armBaseAngle i = 2 * Real.pi * ((i % arms : ℕ) : ℝ) / (arms : ℝ) ∧
    randomFactor (armRadius (rnd 0)) = 0.2 + armRadius (rnd 0) / diskRadius * 0.6 ∧
    ∃ k : ℕ, k < arms ∧ k = i % arms ∧
      |armAngle i rnd - (2 * Real.pi * (k : ℝ) / (arms : ℝ) +
        armRadius (rnd 0) * spiralStrength)| ≤ randomFactor (armRadius (rnd 0)) / 2 := by
  have hbase : armBaseAngle i = 2 * Real.pi * ((i % arms : ℕ) : ℝ) / (arms : ℝ) := by
    unfold armBaseAngle
    ring
  refine ⟨rfl, hbase, rfl, i % arms, Nat.mod_lt i (by norm_num [arms]), rfl, ?_⟩
  have hrad := armRadius_nonneg h0
  have hrf : 0 ≤ randomFactor (armRadius (rnd 0)) := by
    unfold randomFactor diskRadius
    linarith
  have habs : |rnd 1 - 0.5| ≤ 0.5 := abs_le.mpr ⟨by linarith, by linarith⟩
  have key : armAngle i rnd - (2 * Real.pi * ((i % arms : ℕ) : ℝ) / (arms : ℝ) +
      armRadius (rnd 0) * spiralStrength) =
      (rnd 1 - 0.5) * randomFactor (armRadius (rnd 0)) := by
    rw [← hbase]
    unfold armAngle
    ring
  rw [key, abs_mul, abs_of_nonneg hrf]
  nlinarith [mul_nonneg (sub_nonneg.mpr habs) hrf]

/-- Claim C3 witness: the angle decomposition at sample index 6 with the
all-zeros draw stream. -/
theorem c3_arm_angle_witness :
    ((0 : ℝ) ≤ zeroDraw 0 ∧ (0 : ℝ) ≤ zeroDraw 1 ∧ zeroDraw 1 < 1) ∧
    (armAngle 6 zeroDraw =
      armBaseAngle 6 + armRadius (zeroDraw 0) * spiralStrength +
        (zeroDraw 1 - 0.5) * randomFactor (armRadius (zeroDraw 0)) ∧
    armBaseAngle 6 = 2 * Real.pi * ((6 % arms : ℕ) : ℝ) / (arms : ℝ) ∧
    randomFactor (armRadius (zeroDraw 0)) =
      0.2 + armRadius (zeroDraw 0) / diskRadius * 0.6 ∧
    ∃ k : ℕ, k < arms ∧ k = 6 % arms ∧
      |armAngle 6 zeroDraw - (2 * Real.pi * (k : ℝ) / (arms : ℝ) +
        armRadius (zeroDraw 0) * spiralStrength)| ≤
          randomFactor (armRadius (zeroDraw 0)) / 2) :=
  ⟨⟨le_rfl, le_rfl, by norm_num [zeroDraw]⟩,
    c3_arm_angle 6 zeroDraw le_rfl le_rfl (by norm_num [zeroDraw])⟩

/-- Claim C4: arm colour banding.  A sample with radius < 1.2 always gets the
warm yellow-white colour; in band 1.2 <= radius < 3 the colour is blue-white
when the band draw is below 0.7 and warm yellow otherwise (absent the
override); for radius >= 3 it is the red-shifted colour with randomized green
and blue channels (absent the override); the 1-percent override fires exactly
when the override draw is below 0.01 and radius > 1.2, so it never applies
below radius 1.2. -/
theorem c4_arm_color_bands (rnd : ℕ → ℝ) :
    (armRadius (rnd 0) < 1.2 → armColor rnd = (1, 0.9, 0.7)) ∧
    (1.2 ≤ armRadius (rnd 0) → armRadius (rnd 0) < 3 →
      ¬ rnd (armHotIdx rnd) < 0.01 →
      ((rnd 3 < 0.7 → armColor rnd = (0.9, 0.9, 0.8 + rnd 4 * 0.2)) ∧
       (0.7 ≤ rnd 3 → armColor rnd = (1, 0.9, 0.7)))) ∧
    (3 ≤ armRadius (rnd 0) → ¬ rnd (armHotIdx rnd) < 0.01 →
      armColor rnd = (1, 0.6 + rnd 3 * 0.3, 0.4 + rnd 4 * 0.3)) ∧
    (rnd (armHotIdx rnd) < 0.01 → 1.2 < armRadius (rnd 0) →
      armColor rnd = (0.7, 0.8, 1)) ∧
    (armRadius (rnd 0) < 1.2 → armColor rnd ≠ (0.7, 0.8, 1)) := by
  have hlow : armRadius (rnd 0) < 1.2 → armColor rnd = (1, 0.9, 0.7) := by
    intro h
    have hno : ¬ (rnd (armHotIdx rnd) < 0.01 ∧ armRadius (rnd 0) > 1.2) :=
      fun hc => absurd hc.2 (not_lt.mpr h.le)
    unfold armColor armBaseColor
    rw [if_neg hno, if_pos h]
  refine ⟨hlow, ?_, ?_, ?_, ?_⟩
  · intro h1 h2 h3
    have hno : ¬ (rnd (armHotIdx rnd) < 0.01 ∧ armRadius (rnd 0) > 1.2) :=
      fun hc => h3 hc.1
    constructor
    · intro h4
      unfold armColor armBaseColor
      rw [if_neg hno, if_neg (not_lt.mpr h1), if_pos h2, if_pos h4]
    · intro h4
      unfold armColor armBaseColor
      rw [if_neg hno, if_neg (not_lt.mpr h1), if_pos h2, if_neg (not_lt.mpr h4)]
  · intro h1 h3
    have hno : ¬ (rnd (armHotIdx rnd) < 0.01 ∧ armRadius (rnd 0) > 1.2) :=
      fun hc => h3 hc.1
    unfold armColor armBaseColor
    rw [if_neg hno, if_neg (not_lt.mpr (by linarith)), if_neg (not_lt.mpr h1)]
  · intro hd hr
    unfold armColor
    rw [if_pos ⟨hd, hr⟩]
  · intro h heq
    rw [hlow h] at heq
    rw [Prod.mk.injEq] at heq
    norm_num at heq

/-- Claim C4 witness: with the all-zeros draw stream the radius is 0 < 1.2,
the colour is the warm yellow-white triple and the hot-star override does not
apply. -/
theorem c4_arm_color_bands_witness :
    armRadius (zeroDraw 0) < 1.2 ∧
    armColor zeroDraw = (1, 0.9, 0.7) ∧ armColor zeroDraw ≠ (0.7, 0.8, 1) := by
  have hr : armRadius (zeroDraw 0) < 1.2 := by
    unfold armRadius zeroDraw diskRadius
    rw [Real.zero_rpow (by norm_num)]
    norm_num
  exact ⟨hr, (c4_arm_color_bands zeroDraw).1 hr,
    (c4_arm_color_bands zeroDraw).2.2.2.2 hr⟩

/-- Claim C5: bar samples have x in [-barLength, barLength], base y in
[-0.1, 0.1] and base z in [-barWidth/2, barWidth/2]; both y and z are scaled
by taperFactor = (1 - |x|/barLength)^1.2, which is 1 at x = 0 (no tapering)
and 0 when |x| = barLength, driving the adjusted y and z to exactly 0 at the
bar ends. -/
theorem c5_bar_taper (rnd : ℕ → ℝ) (h : InUnit rnd) :
    (-barLength ≤ barX rnd ∧ barX rnd ≤ barLength) ∧
    (-0.1 ≤ barBaseY rnd ∧ barBaseY rnd ≤ 0.1) ∧
    (-(barWidth / 2) ≤ barBaseZ rnd ∧ barBaseZ rnd ≤ barWidth / 2) ∧
    (barPos rnd).2.1 = barBaseY rnd * taperFactor (barX rnd) ∧
    (barPos rnd).2.2 = barBaseZ rnd * taperFactor (barX rnd) ∧
    taperFactor 0 = 1 ∧
    (|barX rnd| = barLength →
      taperFactor (barX rnd) = 0 ∧ (barPos rnd).2.1 = 0 ∧ (barPos rnd).2.2 = 0) := by
  obtain ⟨h00, h01⟩ := h 0
  obtain ⟨h10, h11⟩ := h 1
  obtain ⟨h20, h21⟩ := h 2
  refine ⟨⟨?_, ?_⟩, ⟨?_, ?_⟩, ⟨?_, ?_⟩, rfl, rfl, ?_, ?_⟩
  · unfold barX barLength
    linarith
  · unfold barX barLength
    linarith
  · unfold barBaseY
    linarith
  · unfold barBaseY
    linarith
  · unfold barBaseZ barWidth
    linarith
  · unfold barBaseZ barWidth
    linarith
  · unfold taperFactor
    rw [abs_zero, zero_div, sub_zero, Real.one_rpow]
  · intro habs
    have ht : taperFactor (barX rnd) = 0 := by
      unfold taperFactor
      rw [habs, div_self (by norm_num [barLength] : barLength ≠ 0), sub_self,
        Real.zero_rpow (by norm_num)]
    refine ⟨ht, ?_, ?_⟩
    · show barBaseY rnd * taperFactor (barX rnd) = 0
      rw [ht, mul_zero]
    · show barBaseZ rnd * taperFactor (barX rnd) = 0
      rw [ht, mul_zero]

/-- Claim C5 witness: the all-zeros draw stream puts the bar sample at the
end x = -barLength, where the taper factor vanishes and the adjusted y and z
are exactly 0; at x = 0 the taper factor is 1. -/
theorem c5_bar_taper_witness :
    InUnit zeroDraw ∧ |barX zeroDraw| = barLength ∧
    taperFactor 0 = 1 ∧ (barPos zeroDraw).2.1 = 0 ∧ (barPos zeroDraw).2.2 = 0 := by
  have hz : InUnit zeroDraw := fun _ => ⟨le_rfl, by norm_num [zeroDraw]⟩
  have habs : |barX zeroDraw| = barLength := by
    unfold barX zeroDraw barLength
    rw [abs_of_nonpos (by norm_num)]
    norm_num
  obtain ⟨_, _, _, _, _, ht1, hend⟩ := c5_bar_taper zeroDraw hz
  exact ⟨hz, habs, ht1, (hend habs).2.1, (hend habs).2.2⟩

/-- Claim C6: a core sample is spherical sampling with theta = U * 2 pi,
phi = arccos(2U - 1) and r = coreRadius * U^0.3, converted to Cartesian with
the y component scaled by 0.6; consequently every core position lies inside
the oblate ellipsoid x^2 + (y/0.6)^2 + z^2 <= coreRadius^2. -/
theorem c6_core_ellipsoid (rnd : ℕ → ℝ) (h0 : 0 ≤ rnd 2) (h1 : rnd 2 < 1) :
    (corePos rnd).1 =
      coreSampleRadius rnd * Real.sin (corePhi rnd) * Real.cos (coreTheta rnd) ∧
    (corePos rnd).2.1 =
      coreSampleRadius rnd * Real.sin (corePhi rnd) * Real.sin (coreTheta rnd) * 0.6 ∧
    (corePos rnd).2.2 = coreSampleRadius rnd * Real.cos (corePhi rnd) ∧
    coreTheta rnd = rnd 0 * Real.pi * 2 ∧
    corePhi rnd = Real.arccos (2 * rnd 1 - 1) ∧
    coreSampleRadius rnd = rnd 2 ^ (0.3 : ℝ) * coreRadius ∧
    (corePos rnd).1 ^ 2 + ((corePos rnd).2.1 / 0.6) ^ 2 + (corePos rnd).2.2 ^ 2 ≤
      coreRadius ^ 2 := by
  refine ⟨rfl, rfl, rfl, rfl, rfl, rfl, ?_⟩
  have ht := Real.sin_sq_add_cos_sq (coreTheta rnd)
  have hp := Real.sin_sq_add_cos_sq (corePhi rnd)
  have hkey : (corePos rnd).1 ^ 2 + ((corePos rnd).2.1 / 0.6) ^ 2 +
      (corePos rnd).2.2 ^ 2 = coreSampleRadius rnd ^ 2 := by
    show (coreSampleRadius rnd * Real.sin (corePhi rnd) * Real.cos (coreTheta rnd)) ^ 2 +
      (coreSampleRadius rnd * Real.sin (corePhi rnd) * Real.sin (coreTheta rnd) * 0.6 / 0.6) ^ 2 +
      (coreSampleRadius rnd * Real.cos (corePhi rnd)) ^ 2 = coreSampleRadius rnd ^ 2
    have hdiv : coreSampleRadius rnd * Real.sin (corePhi rnd) * Real.sin (coreTheta rnd) * 0.6 / 0.6
        = coreSampleRadius rnd * Real.sin (corePhi rnd) * Real.sin (coreTheta rnd) := by
      field_simp
    rw [hdiv]
    linear_combination (coreSampleRadius rnd ^ 2 * Real.sin (corePhi rnd) ^ 2) * ht +
      coreSampleRadius rnd ^ 2 * hp
  rw [hkey]
  have hr0 : 0 ≤ coreSampleRadius rnd :=
    mul_nonneg (Real.rpow_nonneg h0 _) (by norm_num [coreRadius])
  have hr1 : coreSampleRadius rnd ≤ coreRadius := by
    have hle := Real.rpow_le_one h0 h1.le (by norm_num : (0:ℝ) ≤ 0.3)
    unfold coreSampleRadius coreRadius
    linarith
  exact pow_le_pow_left₀ hr0 hr1 2

/-- Claim C6 witness: the ellipsoid bound instantiated at the all-zeros draw
stream. -/
theorem c6_core_ellipsoid_witness :
    ((0 : ℝ) ≤ zeroDraw 2 ∧ zeroDraw 2 < 1) ∧
    (corePos zeroDraw).1 ^ 2 + ((corePos zeroDraw).2.1 / 0.6) ^ 2 +
      (corePos zeroDraw).2.2 ^ 2 ≤ coreRadius ^ 2 :=
  ⟨⟨le_rfl, by norm_num [zeroDraw]⟩,
    (c6_core_ellipsoid zeroDraw le_rfl (by norm_num [zeroDraw])).2.2.2.2.2.2⟩

theorem frameUpdate_iterate (N : ℕ) (s : GalaxyScene) :
    (frameUpdate^[N] s).galaxyRotY = s.galaxyRotY + N * 0.0002 ∧
    (frameUpdate^[N] s).barRotY = s.barRotY + N * 0.0002 ∧
    (frameUpdate^[N] s).coreRotY = s.coreRotY + N * 0.0002 ∧
    (frameUpdate^[N] s).armPositionsBuf = s.armPositionsBuf ∧
    (frameUpdate^[N] s).armColorsBuf = s.armColorsBuf ∧
    (frameUpdate^[N] s).barPositionsBuf = s.barPositionsBuf ∧
    (frameUpdate^[N] s).barColorsBuf = s.barColorsBuf ∧
    (frameUpdate^[N] s).corePositionsBuf = s.corePositionsBuf ∧
    (frameUpdate^[N] s).coreColorsBuf = s.coreColorsBuf := by
  induction N with
  | zero => simp
  | succ k ih =>
    obtain ⟨e1, e2, e3, e4, e5, e6, e7, e8, e9⟩ := ih
    rw [Function.iterate_succ_apply']
    refine ⟨?_, ?_, ?_, e4, e5, e6, e7, e8, e9⟩ <;>
      simp only [frameUpdate, e1, e2, e3] <;> push_cast <;> ring

/-- Claim C7: starting from rotation 0, after N per-frame updates each
region's accumulated rotation angle equals N * 0.0002 (and hence is congruent
to N * 0.0002 modulo 2 pi), independent of particle counts and of the random
sources used for generation. -/
theorem c7_rotation_accumulates (u v w : ℕ → ℕ → ℝ) (nA nB nC N : ℕ) :
    (frameUpdate^[N] (initialScene u v w nA nB nC)).galaxyRotY = N * 0.0002 ∧
    (frameUpdate^[N] (initialScene u v w nA nB nC)).barRotY = N * 0.0002 ∧
    (frameUpdate^[N] (initialScene u v w nA nB nC)).coreRotY = N * 0.0002 ∧
    (∃ k : ℤ, (frameUpdate^[N] (initialScene u v w nA nB nC)).galaxyRotY -
      N * 0.0002 = k * (2 * Real.pi)) := by
  obtain ⟨e1, e2, e3, _⟩ := frameUpdate_iterate N (initialScene u v w nA nB nC)
  have h1 : (initialScene u v w nA nB nC).galaxyRotY = 0 := rfl
  have h2 : (initialScene u v w nA nB nC).barRotY = 0 := rfl
  have h3 : (initialScene u v w nA nB nC).coreRotY = 0 := rfl
  rw [h1] at e1
  rw [h2] at e2
  rw [h3] at e3
  refine ⟨by rw [e1]; ring, by rw [e2]; ring, by rw [e3]; ring, 0, by rw [e1]; ring⟩

/-- Claim C8: a frame update mutates only the rotation angles: all six
generated position and colour buffers are unchanged, and each rotation is
advanced by exactly 0.0002. -/
theorem c8_frame_update_touches_only_rotation (s : GalaxyScene) :
    (frameUpdate s).armPositionsBuf = s.armPositionsBuf ∧
    (frameUpdate s).armColorsBuf = s.armColorsBuf ∧
    (frameUpdate s).barPositionsBuf = s.barPositionsBuf ∧
    (frameUpdate s).barColorsBuf = s.barColorsBuf ∧
    (frameUpdate s).corePositionsBuf = s.corePositionsBuf ∧
    (frameUpdate s).coreColorsBuf = s.coreColorsBuf ∧
    (frameUpdate s).galaxyRotY = s.galaxyRotY + 0.0002 ∧
    (frameUpdate s).barRotY = s.barRotY + 0.0002 ∧
    (frameUpdate s).coreRotY = s.coreRotY + 0.0002 :=
  ⟨rfl, rfl, rfl, rfl, rfl, rfl, rfl, rfl, rfl⟩

/-- Claim C10: the three regions' rotation angles start at 0 and every frame
update increments each by the same constant, so after any number of frames
the arms, bar and core rotations are all equal to one another. -/
theorem c10_rotations_stay_aligned (u v w : ℕ → ℕ → ℝ) (nA nB nC N : ℕ) :
    (initialScene u v w nA nB nC).galaxyRotY = 0 ∧
    (initialScene u v w nA nB nC).barRotY = 0 ∧
    (initialScene u v w nA nB nC).coreRotY = 0 ∧
    (frameUpdate^[N] (initialScene u v w nA nB nC)).galaxyRotY =
      (frameUpdate^[N] (initialScene u v w nA nB nC)).barRotY ∧
    (frameUpdate^[N] (initialScene u v w nA nB nC)).barRotY =
      (frameUpdate^[N] (initialScene u v w nA nB nC)).coreRotY := by
  obtain ⟨e1, e2, e3, _⟩ := frameUpdate_iterate N (initialScene u v w nA nB nC)
  refine ⟨rfl, rfl, rfl, ?_, ?_⟩
  · rw [e1, e2]
    rfl
  · rw [e2, e3]
    rfl

/-- Claim C9 counterexample: a misconfigured negative particle count does not
fail fast: every generator silently returns the empty degenerate point set,
because the source loop for (let i = 0; i < count; i++) runs zero times and
no validation exists (the counts at lines 13, 18 and 23 are unchecked
constants). -/
theorem c9_counterexample :
    armPositionsOfCount zeroStream (-1) = [] ∧
    armColorsOfCount zeroStream (-1) = [] ∧
    barPositionsOfCount zeroStream (-1) = [] ∧
    barColorsOfCount zeroStream (-1) = [] ∧
    corePositionsOfCount zeroStream (-1) = [] ∧
    coreColorsOfCount zeroStream (-1) = [] :=
  ⟨rfl, rfl, rfl, rfl, rfl, rfl⟩

/-- Claim C9 amended: the generators perform no parameter validation; for any
requested count at most 0, every region generator totally and silently
returns empty positions and colors lists, raising no error. -/
theorem c9_amended_no_validation (u : ℕ → ℕ → ℝ) (count : ℤ) (h : count ≤ 0) :
    armPositionsOfCount u count = [] ∧ armColorsOfCount u count = [] ∧
    barPositionsOfCount u count = [] ∧ barColorsOfCount u count = [] ∧
    corePositionsOfCount u count = [] ∧ coreColorsOfCount u count = [] := by
  have ht : count.toNat = 0 := Int.toNat_of_nonpos h
  unfold armPositionsOfCount armColorsOfCount barPositionsOfCount barColorsOfCount
    corePositionsOfCount coreColorsOfCount
  rw [ht]
  exact ⟨rfl, rfl, rfl, rfl, rfl, rfl⟩

/-- Claim C9 amended witness: the silent empty output at requested count -2. -/
theorem c9_amended_no_validation_witness :
    (-2 : ℤ) ≤ 0 ∧ armPositionsOfCount zeroStream (-2) = [] ∧
    armColorsOfCount zeroStream (-2) = [] ∧
    barPositionsOfCount zeroStream (-2) = [] ∧
    barColorsOfCount zeroStream (-2) = [] ∧
    corePositionsOfCount zeroStream (-2) = [] ∧
    coreColorsOfCount zeroStream (-2) = [] := by
  have h := c9_amended_no_validation zeroStream (-2) (by norm_num)
  exact ⟨by norm_num, h.1, h.2.1, h.2.2.1, h.2.2.2.1, h.2.2.2.2.1, h.2.2.2.2.2⟩

end AnimatedBackground
